import Mathlib

/-!
Verification development for the kbputils repository (kbp.py + converters.py).

The Python source is shallowly embedded: pure functions become Lean functions,
Python exceptions become `Except PyErr`, Python dicts (which preserve insertion
order) become association lists with insertion-order update semantics, and
machine integers are `Int` (Python ints are unbounded, so no wraparound is
modelled).
-/

/-- Python exception classes that the embedded code can raise. -/
inductive PyErr where
  | valueError (msg : String)
  | keyError (msg : String)
  | indexError
  | typeError (msg : String)
  | notImplementedError (msg : String)
  | assertionError
  | attributeError (msg : String)
  | nameError (msg : String)
  | missingSections (sections : List String)
deriving Repr, DecidableEq

/-- Python `str.lstrip` over the character list (ASCII whitespace). -/
def pyLstrip (l : List Char) : List Char := l.dropWhile Char.isWhitespace

/-- Python `str.strip`. -/
def pyStrip (l : List Char) : List Char :=
  ((l.dropWhile Char.isWhitespace).reverse.dropWhile Char.isWhitespace).reverse

/-- Python `str.lstrip` as a string-to-string function. -/
def pyLstripStr (s : String) : String := String.mk (pyLstrip s.toList)

/-- Python `str.strip` as a string-to-string function. -/
def pyStripStr (s : String) : String := String.mk (pyStrip s.toList)

/-- Python `s.split(sep)` for a one-character separator, over character
lists: empty fields are kept and the empty string yields one empty field. -/
def splitCharList (sep : Char) : List Char → List (List Char)
  | [] => [[]]
  | c :: rest =>
      if c = sep then [] :: splitCharList sep rest
      else
        match splitCharList sep rest with
        | g :: gs => (c :: g) :: gs
        | [] => [[c]]

/-- Python `s.split(sep)` for a one-character separator. -/
def pySplitChar (sep : Char) (s : String) : List String :=
  (splitCharList sep s.toList).map String.mk

/-- Python `s.startswith(pre)`. -/
def pyStartsWith (s pre : String) : Bool := pre.toList.isPrefixOf s.toList

/-- The numeric value of a nonempty all-digit character list. -/
def digitsVal (l : List Char) : Option Nat :=
  if l ≠ [] ∧ l.all Char.isDigit then
    some (l.foldl (fun acc c => acc * 10 + (c.toNat - 48)) 0)
  else none

/-- Python `re.sub` of the `\x7b-\x7d` separator surrogate by `/`
(all occurrences, left to right). -/
def replaceBrDash : List Char → List Char
  | '\x7b' :: '-' :: '\x7d' :: rest => '/' :: replaceBrDash rest
  | c :: rest => c :: replaceBrDash rest
  | [] => []

/-- Python `str.lower` (ASCII). -/
def pyLower (s : String) : String := String.mk (s.toList.map Char.toLower)

/-- Python `c in s` for a one-character needle. -/
def strContainsChar (s : String) (c : Char) : Bool := s.toList.contains c

/-- Python `int(s)`: optional surrounding whitespace, optional sign, decimal digits;
anything else raises ValueError. -/
def pyInt (s : String) : Except PyErr Int :=
  let t := pyStrip s.toList
  let core : Option Int :=
    match t with
    | '-' :: rest => (digitsVal rest).map (fun n => -(n : Int))
    | '+' :: rest => (digitsVal rest).map (fun n => (n : Int))
    | _ => (digitsVal t).map (fun n => (n : Int))
  match core with
  | some v => .ok v
  | none => .error (.valueError ("invalid literal for int() with base 10: " ++ s))

/-- Python `lst[i]` on a list of strings: IndexError when out of range (only
non-negative indices are used by the embedded code). -/
def pyGet (lines : List String) (i : Nat) : Except PyErr String :=
  match lines.get? i with
  | some s => .ok s
  | none => .error .indexError

/-- Python `lst.index(target, start)`: first index `≥ start` whose element equals
`target`; ValueError when absent. -/
def pyIndexFrom (lines : List String) (target : String) (start : Nat) : Except PyErr Nat :=
  match (lines.drop start).findIdx? (· = target) with
  | some i => .ok (start + i)
  | none => .error (.valueError (target ++ " is not in list"))

/-- Python `s.split(maxsplit=1)` (split on whitespace runs, at most one split;
no empty strings are produced). -/
def pySplitMax1 (s : String) : List String :=
  let l := s.toList.dropWhile Char.isWhitespace
  let first := l.takeWhile (fun c => ¬ c.isWhitespace)
  let rest := (l.dropWhile (fun c => ¬ c.isWhitespace)).dropWhile Char.isWhitespace
  if first = [] then []
  else if rest = [] then [String.mk first]
  else [String.mk first, String.mk rest]

/-- A value that is either a resolved color string or a raw palette index
(the Python field type is `str | int`). -/
inductive ColorVal where
  | str (s : String)
  | int (n : Int)
deriving Repr, DecidableEq

/-- kbp.py `KBPSyllable` (`end` is a Lean keyword, stored as `end_`). -/
structure KBPSyllable where
  syllable : String
  start : Int
  end_ : Int
  wipe : Int
deriving Repr, DecidableEq

def KBPSyllable.isempty (s : KBPSyllable) : Bool := s.syllable = ""

/-- kbp.py `KBPLineHeader`.  The source stores `style` as a one-character
string (the line-header pattern guarantees a single ASCII letter); it is
embedded as a `Char`. -/
structure KBPLineHeader where
  align : String
  style : Char
  start : Int
  end_ : Int
  right : Int
  down : Int
  rotation : Int
deriving Repr, DecidableEq

def KBPLineHeader.isfixed (h : KBPLineHeader) : Bool := h.style.isLower

/-- kbp.py `KBPLine` (header plus ordered syllables). -/
structure KBPLine where
  header : KBPLineHeader
  syllables : List KBPSyllable
deriving Repr, DecidableEq

/- KBPLine delegates unresolved attributes to its header. -/
def KBPLine.align (l : KBPLine) : String := l.header.align
def KBPLine.style (l : KBPLine) : Char := l.header.style
def KBPLine.start (l : KBPLine) : Int := l.header.start
def KBPLine.end_ (l : KBPLine) : Int := l.header.end_

def KBPLine.isempty (l : KBPLine) : Bool :=
  l.syllables.isEmpty || (l.syllables.length = 1 && (l.syllables.headD ⟨"", 0, 0, 0⟩).isempty)

/-- kbp.py `KBPLine.text()` with the default arguments (empty separator), which is
the only form the converter uses: empty lines give the separator (here `""`),
other lines concatenate the syllable texts. -/
def KBPLine.textDefault (l : KBPLine) : String :=
  if l.isempty then "" else String.join (l.syllables.map (·.syllable))

/-- kbp.py `KBPStyle`. -/
structure KBPStyle where
  name : String
  textcolor : ColorVal
  outlinecolor : ColorVal
  textwipecolor : ColorVal
  outlinewipecolor : ColorVal
  fontname : String
  fontsize : Int
  fontstyle : String
  charset : Int
  outlines : List Int
  shadows : List Int
  wipestyle : Int
  allcaps : String
  fixed : Bool
deriving Repr, DecidableEq

/-- kbp.py `KBPStyle.make_fixed`. -/
def KBPStyle.make_fixed (style : KBPStyle) : KBPStyle :=
  if style.fixed then style
  else { style with
          name := style.name ++ "_fixed",
          textwipecolor := style.textcolor,
          outlinewipecolor := style.outlinecolor,
          fixed := true }

/-- string.ascii_uppercase. -/
def asciiUppercase : List Char := "ABCDEFGHIJKLMNOPQRSTUVWXYZ".toList

/-- string.ascii_lowercase. -/
def asciiLowercase : List Char := "abcdefghijklmnopqrstuvwxyz".toList

/-- kbp.py `KBPStyleCollection.alpha2key` (returns Python `None`, i.e. `none`,
for non-letters). -/
def alpha2key (alpha : Char) : Option Int :=
  if alpha ∈ asciiUppercase then some ((asciiUppercase.indexOf alpha : Int) + 1)
  else if alpha ∈ asciiLowercase then some (-(asciiLowercase.indexOf alpha : Int) - 1)
  else none

/-- Python string indexing: a negative index counts from the end; out of range
raises IndexError (modelled as `none`). -/
def pyStrIndex (l : List Char) (i : Int) : Option Char :=
  if 0 ≤ i then l.get? i.toNat
  else if 0 ≤ i + l.length then l.get? (i + l.length).toNat
  else none

/-- kbp.py `KBPStyleCollection.key2alpha`, including Python's negative-index
behavior on the underlying alphabet strings. -/
def key2alpha (key : Int) : Option Char :=
  if key < 0 then pyStrIndex asciiLowercase (-key - 1)
  else pyStrIndex asciiUppercase (key - 1)

/-- A `KBPStyleCollection`: a Python dict keyed by signed ints, embedded as an
association list in insertion order. -/
abbrev StyleColl : Type := List (Int × KBPStyle)

/-- Python dict lookup (no `__missing__`). -/
def dictLookup : StyleColl → Int → Option KBPStyle
  | [], _ => none
  | (k, v) :: rest, key => if k = key then some v else dictLookup rest key

/-- Python dict item assignment: updates in place when the key exists
(keeping its position), otherwise appends. -/
def dictSet : StyleColl → Int → KBPStyle → StyleColl
  | [], key, v => [(key, v)]
  | (k, w) :: rest, key, v =>
      if k = key then (k, v) :: rest else (k, w) :: dictSet rest key v

/-- kbp.py `KBPStyleCollection.__getitem__` on an int key, with the
`__missing__` auto-vivification of fixed styles: a missing key whose negation
is present caches and returns the fixed derivative; otherwise KeyError.
Returns the value together with the (possibly updated) collection. -/
def styleGet (d : StyleColl) (key : Int) : Except PyErr (KBPStyle × StyleColl) :=
  match dictLookup d key with
  | some v => .ok (v, d)
  | none =>
      match dictLookup d (-key) with
      | some w =>
          let v := w.make_fixed
          .ok (v, dictSet d key v)
      | none => .error (.keyError (toString key))

/-- kbp.py `KBPStyleCollection.__getitem__` on a (one-character string) letter
key: `__missing__` resolves ASCII letters through `alpha2key` and re-indexes;
anything else raises KeyError. -/
def styleGetAlpha (d : StyleColl) (c : Char) : Except PyErr (KBPStyle × StyleColl) :=
  if c ∈ asciiUppercase ∨ c ∈ asciiLowercase then
    match alpha2key c with
    | some k => styleGet d k
    | none => .error (.keyError (toString c))
  else .error (.keyError (toString c))

/-- kbp.py `KBPStyleCollection.__setitem__`: validates the key range
[-26,-1] ∪ [1,26] before assignment. -/
def stylesSet (d : StyleColl) (key : Int) (v : KBPStyle) : Except PyErr StyleColl :=
  if (1 ≤ key ∧ key ≤ 26) ∨ (-26 ≤ key ∧ key ≤ -1) then .ok (dictSet d key v)
  else .error (.keyError ("Invalid index for item in KBPStyleCollection: " ++ toString key))

/-- kbp.py `KBPPage`. -/
structure KBPPage where
  remove : String
  display : String
  lines : List KBPLine
deriving Repr, DecidableEq

/-- `\d+`: one or more ASCII digits. -/
def isDigits (s : String) : Bool := !s.toList.isEmpty && s.toList.all Char.isDigit

/-- `-?\d+`. -/
def isSignedDigits (s : String) : Bool :=
  match s.toList with
  | '-' :: rest => !rest.isEmpty && rest.all Char.isDigit
  | l => !l.isEmpty && l.all Char.isDigit

/-- kbp.py line-header pattern (alignment letter L, C or R, a single ASCII
letter, two unsigned integer fields and three signed integer fields, all
slash-separated, anchored at both ends), expressed over the slash-separated
fields: no field of the pattern can contain a slash, so the split-based check
is equivalent to the anchored regex. -/
def isLineHeaderStr (x : String) : Bool :=
  match pySplitChar '/' x with
  | [a, b, c, d, e, f, g] =>
      (a = "L" || a = "C" || a = "R") &&
      (b.length = 1 && b.toList.all Char.isAlpha) &&
      isDigits c && isDigits d &&
      isSignedDigits e && isSignedDigits f && isSignedDigits g
  | _ => false

/-- State of the kbp.py `KBPPage.from_textlines` loop. -/
structure PageState where
  lines : List KBPLine
  syllables : List KBPSyllable
  header : Option KBPLineHeader
  transitions : List String
deriving Repr, DecidableEq

def pageInit : PageState := ⟨[], [], none, ["", ""]⟩

/-- One syllable record of a page block (the final `elif x != ""` branch of
`KBPPage.from_textlines`): `{-}` is a surrogate for a literal `/` in the text
field, the second field is left-stripped, the remaining fields parse as
integers, and a wipe of 0 is replaced by a truthy default wipe. -/
def parseSyllable (dw : Option Int) (x : String) : Except PyErr KBPSyllable := do
  let fields := pySplitChar '/' x
  let f0 := String.mk (replaceBrDash (fields.headD "").toList)
  match fields with
  | [] => .error .indexError
  | [_] => .error .indexError
  | _ :: f1 :: frest =>
    let ints ← (pyLstripStr f1 :: frest).mapM pyInt
    -- Python: `if default_wipe and fields[3] == 0: fields[3] = default_wipe`
    -- (fields[3] is only touched when default_wipe is truthy).
    let ints ← match dw with
      | some w =>
          if w ≠ 0 then
            match ints.get? 2 with
            | some v => pure (if v = 0 then ints.set 2 w else ints)
            | none => .error .indexError
          else pure ints
      | none => pure ints
    -- KBPSyllable(**dict(zip(names, fields))): fewer than four fields is a
    -- TypeError (missing argument); extra fields are dropped by zip.
    match ints with
    | s :: e :: w :: _ => .ok ⟨f0, s, e, w⟩
    | _ => .error (.typeError "KBPSyllable missing required argument")

/-- KBPLineHeader from a matched line-header record. -/
def parseLineHeader (x : String) : Except PyErr KBPLineHeader := do
  match pySplitChar '/' x with
  | [a, b, c, d, e, f, g] =>
    let start ← pyInt c
    let end_ ← pyInt d
    let right ← pyInt e
    let down ← pyInt f
    let rot ← pyInt g
    match b.toList with
    | [ch] => .ok ⟨a, ch, start, end_, right, down, rot⟩
    | _ => .error (.typeError "style is not a single character")
  | _ => .error (.typeError "not a line header")

/-- One iteration of the kbp.py `KBPPage.from_textlines` loop, with the source's
branch order: open a header, close a line on an empty line, record transitions
when no header is open, otherwise parse a syllable record. -/
def pageStep (dw : Option Int) (st : PageState) (x : String) : Except PyErr PageState :=
  if st.header.isNone && isLineHeaderStr x then do
    let h ← parseLineHeader x
    .ok { st with header := some h }
  else if x = "" && st.header.isSome then
    .ok { st with
            lines := st.lines ++ [⟨st.header.getD ⟨"", 'A', 0, 0, 0, 0, 0⟩, st.syllables⟩],
            syllables := [],
            header := none }
  else if st.header.isNone && pyStartsWith x "FX/" then
    .ok { st with transitions := (pySplitChar '/' x).tail }
  else if x ≠ "" then do
    let syl ← parseSyllable dw x
    .ok { st with syllables := st.syllables ++ [syl] }
  else .ok st

/-- The kbp.py `KBPPage.from_textlines` loop over all lines of a page block. -/
def runPage (dw : Option Int) : PageState → List String → Except PyErr PageState
  | st, [] => .ok st
  | st, x :: xs =>
      match pageStep dw st x with
      | .ok st' => runPage dw st' xs
      | .error e => .error e

/-- kbp.py `KBPPage.from_textlines`: run the loop, then
`KBPPage(*transitions, lines)` (a TypeError unless exactly two transition ids
were recorded). -/
def pageFromTextlines (page_lines : List String) (dw : Option Int) : Except PyErr KBPPage := do
  let st ← runPage dw pageInit page_lines
  match st.transitions with
  | [r, d] => .ok ⟨r, d, st.lines⟩
  | _ => .error (.typeError "KBPPage() takes 3 positional arguments")

/-- kbp.py `KBPImage`. -/
structure KBPImage where
  start : Int
  end_ : Int
  filename : String
  leaveonscreen : Int
deriving Repr, DecidableEq

/-- kbp.py `KBPImage.from_string`. -/
def imageFromString (image_line : String) : Except PyErr KBPImage := do
  match pySplitChar '/' image_line with
  | f0 :: f1 :: f2 :: f3 :: _ =>
    let s ← pyInt f0
    let e ← pyInt f1
    let leave ← pyInt f3
    .ok ⟨s, e, f2, leave⟩
  | _ => .error .indexError

/-- A `KBPPalette`: 16 three-character color codes. -/
abbrev KBPPalette : Type := List String

/-- The `[0-9A-F]` character class. -/
def isHexUpper (c : Char) : Bool := c.isDigit || ('A' ≤ c && c ≤ 'F')

/-- kbp.py `KBPPalette.from_string` plus the `KBPPalette.__new__` assertion
(exactly 16 codes, each matching `[0-9A-F]{3}$`). -/
def paletteFromString (palette_line : String) : Except PyErr KBPPalette :=
  let colors := pySplitChar ',' (pyLstripStr palette_line)
  if colors.length = 16 && colors.all (fun s => s.toList.length = 3 && s.toList.all isHexUpper) then
    .ok colors
  else .error .assertionError

/-- kbp.py `KBPPalette.__getitem__`: int index in [0,16) or KeyError. -/
def paletteGet (p : KBPPalette) (x : Int) : Except PyErr String :=
  if 0 ≤ x ∧ x < 16 then
    match (p : List String).get? x.toNat with
    | some s => .ok s
    | none => .error (.keyError (toString x))
  else .error (.keyError (toString x))

/-- kbp.py `KBPStyle.has_colors` / `resolve_colors`: replace the four raw
palette indices by the palette entries.  The already-resolved branch of the
source refers to unimported `warnings` (and an undefined `name`), which at
runtime is a NameError; mixed representations raise TypeError. -/
def resolveColors (style : KBPStyle) (palette : KBPPalette) : Except PyErr KBPStyle :=
  match style.textcolor, style.outlinecolor, style.textwipecolor, style.outlinewipecolor with
  | .int a, .int b, .int c, .int d => do
      let ca ← paletteGet palette a
      let cb ← paletteGet palette b
      let cc ← paletteGet palette c
      let cd ← paletteGet palette d
      .ok { style with textcolor := .str ca, outlinecolor := .str cb,
                       textwipecolor := .str cc, outlinewipecolor := .str cd }
  | .str _, .str _, .str _, .str _ => .error (.nameError "name 'warnings' is not defined")
  | _, _, _, _ => .error (.typeError "Mixed/unexpected types found in color parameters")

/-- The `Style` header record of a styles block: name and the four color
indices, parsed from `StyleNN,name,c1,c2,c3,c4` (first line of a 3-line
record).  Returns the style number together with the name and the parsed
color-index list (zip with the five field names truncates silently; missing
fields only surface as a TypeError when the record is constructed). -/
def parseStyleLine1 (line : String) : Except PyErr (Int × String × List Int) := do
  let tmp := pySplitChar ',' line
  let style_no ← pyInt (String.mk ((tmp.headD "").toList.drop 5))
  match tmp with
  | _ :: name :: colorFields => do
      let colors ← colorFields.mapM pyInt
      .ok (style_no, name, colors)
  | _ => .error .indexError

/-- The font line of a styles record: `fontname,fontsize,fontstyle,charset`
(indices 1 and 3 are converted with `int`, raising IndexError when absent). -/
def parseStyleLine2 (line : String) : Except PyErr (String × Int × String × Int) := do
  match pySplitChar ',' line with
  | fontname :: f1 :: fontstyle :: f3 :: _ => do
      let fontsize ← pyInt f1
      let charset ← pyInt f3
      .ok (fontname, fontsize, fontstyle, charset)
  | _ => .error .indexError

/-- The outline/shadow/flags line of a styles record: all fields but the last
are converted with `int`; the record uses indices 0-3 (outlines), 4-5
(shadows), 6 (wipestyle) and 7 (allcaps, kept as a string).  Fewer than eight
fields raise IndexError; more than eight leave an int in the allcaps slot,
which the instantiation validator rejects as a TypeError. -/
def parseStyleLine3 (line : String) : Except PyErr (List Int × List Int × Int × String) := do
  let tmp := pySplitChar ',' line
  if tmp.length < 8 then .error .indexError
  else if tmp.length > 8 then .error (.typeError "allcaps must be str")
  else do
    let ints ← (tmp.dropLast).mapM pyInt
    match ints with
    | [o1, o2, o3, o4, s1, s2, w] =>
        .ok ([o1, o2, o3, o4], [s1, s2], w, tmp.getLastD "")
    | _ => .error .indexError

/-- The optional palette resolution performed on each freshly parsed style
(`if palette: result = result.resolve_colors(palette)`). -/
def applyPalette (palette : Option KBPPalette) (st : KBPStyle) : Except PyErr KBPStyle :=
  match palette with
  | some p => resolveColors st p
  | none => pure st

/-- The kbp.py `KBPStyleCollection.from_textlines` loop.  A `StyleNN` line
(seen while no record is open) parses a full 3-line record using one- and
two-line lookahead, optionally resolves colors against the palette, and stores
the style at key `style_no + 1`; a blank line closes the record; the second
and third lines of an open record are skipped. -/
def stylesLoop (palette : Option KBPPalette) :
    Option Int → StyleColl → List String → Except PyErr StyleColl
  | _, styles, [] => .ok styles
  | style_no, styles, x :: rest =>
      let line := pyLstripStr x
      if line = "" ∧ style_no ≠ none then
        stylesLoop palette none styles rest
      else if style_no = none ∧ pyStartsWith line "Style" then do
        let (no, name, colors) ← parseStyleLine1 line
        let l2 ← pyGet rest 0
        let (fontname, fontsize, fontstyle, charset) ← parseStyleLine2 (pyLstripStr l2)
        let l3 ← pyGet rest 1
        let (outlines, shadows, wipestyle, allcaps) ← parseStyleLine3 (pyLstripStr l3)
        -- KBPStyle(**fields): all five color-line fields must have been zipped.
        match colors with
        | c1 :: c2 :: c3 :: c4 :: _ => do
            let result : KBPStyle :=
              ⟨name, .int c1, .int c2, .int c3, .int c4,
               fontname, fontsize, fontstyle, charset,
               outlines, shadows, wipestyle, allcaps, false⟩
            let result ← applyPalette palette result
            let styles ← stylesSet styles (no + 1) result
            stylesLoop palette (some no) styles rest
        | _ => .error (.typeError "KBPStyle missing required argument")
      else
        stylesLoop palette style_no styles rest

/-- kbp.py `KBPStyleCollection.from_textlines`. -/
def stylesFromTextlines (style_lines : List String) (palette : Option KBPPalette) :
    Except PyErr StyleColl :=
  stylesLoop palette none [] style_lines

/-- Python dict on string keys (insertion order preserved), for the margins,
other and trackinfo sections. -/
def strDictLookup : List (String × String) → String → Option String
  | [], _ => none
  | (k, v) :: rest, key => if k = key then some v else strDictLookup rest key

def strDictSet : List (String × String) → String → String → List (String × String)
  | [], key, v => [(key, v)]
  | (k, w) :: rest, key, v =>
      if k = key then (k, v) :: rest else (k, w) :: strDictSet rest key v

def intDictLookup : List (String × Int) → String → Option Int
  | [], _ => none
  | (k, v) :: rest, key => if k = key then some v else intDictLookup rest key

/-- kbp.py `KBPFile.parse_margins`: `dict(zip(names, ints))` — the generator is
consumed lazily, so only the first four comma-separated fields are converted
and the zip silently truncates on either side. -/
def parseMargins (margin_line : String) : Except PyErr (List (String × Int)) := do
  let vals := ((pySplitChar ',' (pyStripStr margin_line))).take 4
  let ints ← vals.mapM pyInt
  .ok (List.zip ["left", "right", "top", "spacing"] ints)

/-- kbp.py `KBPFile.parse_other` (same truncating-zip shape, two fields). -/
def parseOther (other_line : String) : Except PyErr (List (String × Int)) := do
  let vals := ((pySplitChar ',' (pyStripStr other_line))).take 2
  let ints ← vals.mapM pyInt
  .ok (List.zip ["bordercolor", "wipedetail"] ints)

/-- The kbp.py `KBPFile.parse_trackinfo` loop: an indented line appends
(newline-joined) to the previous key's value (KeyError when there is no
previous key, since the dict is indexed with `None`); other non-empty,
non-comment lines split on the first whitespace run into a lower-cased key and
a value (empty when absent). -/
def trackinfoLoop :
    Option String → List (String × String) → List String →
    Except PyErr (List (String × String))
  | _, ti, [] => .ok ti
  | prev, ti, line :: rest =>
      if pyStartsWith line " " then
        match prev with
        | none => .error (.keyError "None")
        | some p =>
            match strDictLookup ti p with
            | some v => trackinfoLoop prev (strDictSet ti p (v ++ "\n" ++ pyLstripStr line)) rest
            | none => .error (.keyError p)
      else if line ≠ "" ∧ ¬ pyStartsWith line "'" then
        match pySplitMax1 line with
        | [] => trackinfoLoop prev ti rest
        | k :: vs =>
            let k := pyLower k
            let v := vs.headD ""
            trackinfoLoop (some k) (strDictSet ti k v) rest
      else trackinfoLoop prev ti rest

def parseTrackinfo (trackinfo_lines : List String) : Except PyErr (List (String × String)) :=
  trackinfoLoop none [] trackinfo_lines

/-- kbp.py `KBPFile.DIVIDER`. -/
def DIVIDER : String := "-----------------------------"

/-- The parsed `KBPFile` (sections of kbp.py `KBPFile`).  `margins` and
`other` keep the truncating-zip dict shape of the source; `pages` and `images`
are initialized to empty lists by `KBPFile.__init__` before `parse` runs. -/
structure KBPFileData where
  colors : KBPPalette
  styles : StyleColl
  margins : List (String × Int)
  other : List (String × Int)
  trackinfo : List (String × String)
  pages : List KBPPage
  images : List KBPImage
deriving Repr, DecidableEq

/-- Mutable state of the kbp.py `KBPFile.parse` line scan.  `pages` and
`images` exist from the start (set in `__init__`), the five header sections
are attributes that only exist once their section has been parsed. -/
structure ParseState where
  in_header : Bool
  divider : Bool
  colors : Option KBPPalette
  styles : Option StyleColl
  margins : Option (List (String × Int))
  other : Option (List (String × Int))
  trackinfo : Option (List (String × String))
  pages : List KBPPage
  images : List KBPImage
deriving Repr, DecidableEq

def parseInit : ParseState := ⟨false, false, none, none, none, none, none, [], []⟩

/-- The body of the first `if in_header: ... elif ...` chain of
`KBPFile.parse` for one line (index `x` into the full line list, used for the
source's lookahead slices). -/
def parseSections (resolve_colors resolve_wipe : Bool) (all : List String) (x : Nat)
    (st : ParseState) (line : String) : Except PyErr ParseState :=
  if st.in_header then
    if pyStartsWith line "'Palette Colours" then do
      let nxt ← pyGet all (x + 1)
      let colors ← paletteFromString nxt
      .ok { st with colors := some colors }
    else if pyStartsWith line "'Styles" then do
      let endIdx ← pyIndexFrom all "  StyleEnd" (x + 1)
      let data := (all.drop (x + 1)).take (endIdx - (x + 1))
      let data := data.filter (fun s => ! pyStartsWith s "'")
      let pal ← if resolve_colors then
          match st.colors with
          | some p => pure (some p)
          | none => Except.error (.attributeError "'KBPFile' object has no attribute 'colors'")
        else pure none
      let styles ← stylesFromTextlines data pal
      .ok { st with styles := some styles }
    else if pyStartsWith line "'Margins" then do
      let nxt ← pyGet all (x + 1)
      let margins ← parseMargins nxt
      .ok { st with margins := some margins }
    else if pyStartsWith line "'Other" then do
      let nxt ← pyGet all (x + 1)
      let other ← parseOther nxt
      .ok { st with other := some other }
    else if line = "'--- Track Information ---" then do
      let endIdx ← pyIndexFrom all DIVIDER (x + 1)
      let data := (all.drop (x + 1)).take (endIdx - (x + 1))
      let ti ← parseTrackinfo data
      match strDictLookup ti "status" with
      | none => .error (.keyError "status")
      | some s =>
          if s ≠ "1" then
            .error (.notImplementedError
              "Tracks must be synced before they can be used with kbputils.")
          else .ok { st with trackinfo := some ti }
    else .ok st
  else if st.divider ∧ line = "PAGEV2" then do
    let endIdx ← pyIndexFrom all DIVIDER (x + 1)
    let data := (all.drop (x + 1)).take (endIdx - (x + 1))
    let dw ← if resolve_wipe then
        match st.other with
        | some o =>
            match intDictLookup o "wipedetail" with
            | some w => pure (some w)
            | none => Except.error (.keyError "wipedetail")
        | none => Except.error (.attributeError "'KBPFile' object has no attribute 'other'")
      else pure none
    let page ← pageFromTextlines data dw
    .ok { st with pages := st.pages ++ [page] }
  else if st.divider ∧ line = "IMAGE" then do
    let nxt ← pyGet all (x + 1)
    let img ← imageFromString nxt
    .ok { st with images := st.images ++ [img] }
  else .ok st

/-- One full iteration of the `KBPFile.parse` loop: the section chain, then
the header-start marker check, then the divider/flag bookkeeping (all three
test the flags as they stood before this iteration updated them, matching the
statement order of the source). -/
def parseStep (resolve_colors resolve_wipe : Bool) (all : List String) (x : Nat)
    (st : ParseState) (line : String) : Except PyErr ParseState := do
  let st1 ← parseSections resolve_colors resolve_wipe all x st line
  let st2 := if st.divider ∧ line = "HEADERV2" then { st1 with in_header := true } else st1
  let st3 :=
    if line = DIVIDER then { st2 with in_header := false, divider := true }
    else if line ≠ "" ∧ ¬ pyStartsWith line "'" then { st2 with divider := false }
    else st2
  .ok st3

/-- The `for x, line in enumerate(kbpLines)` loop of `KBPFile.parse`:
structural recursion over the remaining suffix, with `x` the index of its head
in the full list. -/
def parseLoop (resolve_colors resolve_wipe : Bool) (all : List String) :
    Nat → List String → ParseState → Except PyErr ParseState
  | _, [], st => .ok st
  | x, line :: rest, st =>
      match parseStep resolve_colors resolve_wipe all x st line with
      | .ok st' => parseLoop resolve_colors resolve_wipe all (x + 1) rest st'
      | .error e => .error e

/-- The required-section names checked at end of parse, in the order of the
source tuple.  `pages` (and `images`) are attributes pre-set by `__init__`, so
`hasattr` is always true for them and they can never be reported missing. -/
def missingSectionsOf (st : ParseState) : List String :=
  ([("colors", st.colors.isNone), ("styles", st.styles.isNone),
    ("margins", st.margins.isNone), ("other", st.other.isNone),
    ("pages", false), ("trackinfo", st.trackinfo.isNone)].filter (·.2)).map (·.1)

/-- kbp.py `KBPFile.parse` (as invoked through `KBPFile.__init__`): run the
line scan, then raise a single error naming every missing section, otherwise
assemble the file. -/
def parse (kbpLines : List String) (resolve_colors resolve_wipe : Bool) :
    Except PyErr KBPFileData := do
  let st ← parseLoop resolve_colors resolve_wipe kbpLines 0 kbpLines parseInit
  let missing := missingSectionsOf st
  if missing ≠ [] then .error (.missingSections missing)
  else
    match st.colors, st.styles, st.margins, st.other, st.trackinfo with
    | some c, some s, some m, some o, some t => .ok ⟨c, s, m, o, t, st.pages, st.images⟩
    | _, _, _, _, _ => .error (.missingSections missing)

/-- converters.py `AssOptions`. -/
structure AssOptions where
  fade_in : Int
  fade_out : Int
  transparency : Bool
  offset : Int ⊕ Bool
deriving Repr, DecidableEq

/-- The `AssOptions` defaults (fade_in 300, fade_out 200, transparency true,
offset true). -/
def defaultAssOptions : AssOptions := ⟨300, 200, true, .inr true⟩

/-- The converter's view of `kbpFile.margins`: the four entries it indexes
(`"left"`, `"right"`, `"top"`, `"spacing"`). -/
structure Margins where
  left : Int
  right : Int
  top : Int
  spacing : Int
deriving Repr, DecidableEq

/-- The vertical coordinate computed inside converters.py `AssConverter.get_pos`:
`margins["top"] + num * (margins["spacing"] + 19) + 12`. -/
def get_pos_y (m : Margins) (num : Nat) : Int :=
  m.top + (num : Int) * (m.spacing + 19) + 12

/-- converters.py `AssConverter.get_pos` (braces are written `\x7b`/`\x7d`). -/
def get_pos (m : Margins) (line : KBPLine) (num : Nat) : String :=
  let y := get_pos_y m num
  if line.align = "C" then
    "\x7b\\pos(150," ++ toString y ++ ")\x7d"
  else if line.align = "L" then
    "\x7b\\an7\\pos(" ++ toString (m.left + 6) ++ "," ++ toString y ++ ")\x7d"
  else
    "\x7b\\an9\\pos(" ++ toString (300 - m.right - 6) ++ "," ++ toString y ++ ")\x7d"

/-- converters.py `AssConverter.fade`. -/
def fade (o : AssOptions) : String :=
  "\x7b\\fad(" ++ toString o.fade_in ++ "," ++ toString o.fade_out ++ ")\x7d"

/-- One piece of the per-line karaoke markup: a non-highlighted hold
(`\k<delay>`) or a highlighted syllable (`\kf<dur>` followed by its text). -/
inductive AssChunk where
  | hold (delay : Int)
  | wipe (dur : Int) (text : String)
deriving Repr, DecidableEq

/-- The syllable loop of converters.py `AssConverter.kbp2asstext`, as the list
of emitted markup chunks: `delay = start - cur`; a positive delay emits a hold,
a negative delay is added to the duration (no floor); the duration gains 1 when
the next syllable starts exactly 1 unit after this one ends; the cursor
advances to `start + dur`. -/
def sylChunks : Int → List KBPSyllable → List AssChunk
  | _, [] => []
  | cur, s :: rest =>
      let delay := s.start - cur
      let dur := s.end_ - s.start
      let dur := if delay < 0 then dur + delay else dur
      let dur := match rest with
        | s2 :: _ => if s2.start - s.end_ = 1 then dur + 1 else dur
        | [] => dur
      (if delay > 0 then [AssChunk.hold delay] else []) ++
        AssChunk.wipe dur s.syllable :: sylChunks (s.start + dur) rest

/-- Rendering of the markup chunks into the tag string built by
`kbp2asstext` (`\k<delay>` holds, `\kf<dur><text>` highlighted syllables). -/
def renderChunks : List AssChunk → String
  | [] => ""
  | .hold d :: r => "\x7b\\k" ++ toString d ++ "\x7d" ++ renderChunks r
  | .wipe d t :: r => "\x7b\\kf" ++ toString d ++ "\x7d" ++ t ++ renderChunks r

/-- converters.py `AssConverter.kbp2asstext`: position tag, fade tag, then the
rendered syllable markup with the cursor initialized to `line.start`. -/
def kbp2asstext (m : Margins) (o : AssOptions) (line : KBPLine) (num : Nat) : String :=
  get_pos m line num ++ fade o ++ renderChunks (sylChunks line.start line.syllables)

/-- Zero-padded two-digit rendering of `abs(index)` (Python `f"{n:02}"`). -/
def pad2 (n : Nat) : String := if n < 10 then "0" ++ toString n else toString n

/-- converters.py `AssConverter.ass_style_name`. -/
def assStyleName (index : Int) (kbpName : String) : String :=
  "Style" ++ pad2 index.natAbs ++ "_" ++ kbpName

/-- converters.py `AssConverter.kbp2asscolor`: doubling each character of the
reversed code behind an opaque-alpha prefix.  Iterating over an `int` color
(an unresolved palette index) is a TypeError in the source. -/
def kbp2asscolor : ColorVal → Except PyErr String
  | .str s => .ok ("&H00" ++ String.join (s.toList.reverse.map (fun c => String.mk [c, c])))
  | .int _ => .error (.typeError "'int' object is not iterable")

/-- An `ass.Dialogue` event as built by `AssConverter.ass_document`
(timedelta start/end are stored in milliseconds). -/
structure AssDialogue where
  start_ms : Int
  end_ms : Int
  style : String
  effect : String
  text : String
deriving Repr, DecidableEq

/-- An `ass.Style` entry as built by `AssConverter.ass_document`.  The
floating-point fields (`fontsize * 1.4`, `sum(outlines)/4`, `sum(shadows)/2`)
are embedded as exact rationals. -/
structure AssStyleOut where
  name : String
  fontname : String
  fontsize : ℚ
  secondary_color : String
  primary_color : String
  outline_color : String
  back_color : String
  bold : Bool
  italic : Bool
  underline : Bool
  strike_out : Bool
  outline : ℚ
  shadow : ℚ
  margin_l : Int
  margin_r : Int
  margin_v : Int
  encoding : Int
  alignment : Int
deriving Repr, DecidableEq

/-- The target `ass.Document`: the fixed script info, the dialogue events and
the style list. -/
structure AssDoc where
  info : List (String × String)
  events : List AssDialogue
  styles : List AssStyleOut
deriving Repr, DecidableEq

/-- The fixed presentation metadata written by `ass_document`. -/
def assScriptInfo : List (String × String) :=
  [("Title", ""), ("ScriptType", "v4.00+"), ("WrapStyle", "0"),
   ("ScaledBorderAndShadow", "yes"), ("Collisions", "Normal"),
   ("PlayResX", "300"), ("PlayResY", "216")]

/-- The per-line event loop of `ass_document` for one page: `num` counts every
line of the page (empty ones included); empty lines emit nothing; a line's
style is looked up twice through the collection (first for the style name,
then for the fixed flag), threading the collection because `__missing__`
caches derived fixed styles. -/
def buildLineEvents (m : Margins) (o : AssOptions) :
    StyleColl → Nat → List KBPLine → Except PyErr (List AssDialogue × StyleColl)
  | coll, _, [] => .ok ([], coll)
  | coll, num, line :: rest =>
      if line.isempty then buildLineEvents m o coll (num + 1) rest
      else do
        let (st1, coll1) ← styleGetAlpha coll line.style
        let styleRef ← match alpha2key line.style with
          | some k => pure (assStyleName k st1.name)
          | none => Except.error (.typeError "bad operand type for abs(): 'NoneType'")
        let (st2, coll2) ← styleGetAlpha coll1 line.style
        let ev : AssDialogue :=
          ⟨line.start * 10, line.end_ * 10, styleRef, "karaoke",
           if st2.fixed then line.textDefault else kbp2asstext m o line num⟩
        let (evs, collF) ← buildLineEvents m o coll2 (num + 1) rest
        .ok (ev :: evs, collF)

/-- The page loop of `ass_document`. -/
def buildEvents (m : Margins) (o : AssOptions) :
    StyleColl → List KBPPage → Except PyErr (List AssDialogue × StyleColl)
  | coll, [] => .ok ([], coll)
  | coll, pg :: rest => do
      let (evs1, c1) ← buildLineEvents m o coll 0 pg.lines
      let (evs2, c2) ← buildEvents m o c1 rest
      .ok (evs1 ++ evs2, c2)

/-- One `ass.Style` entry of the style loop of `ass_document` (the keyword
arguments are evaluated in source order, so `secondary_color`, derived from
`textcolor`, is the first color converted). -/
def buildStyle (idx : Int) (style : KBPStyle) : Except PyErr AssStyleOut := do
  let secondary ← kbp2asscolor style.textcolor
  let primary ← kbp2asscolor style.textwipecolor
  let outlineColor ← kbp2asscolor style.outlinecolor
  let backColor ← kbp2asscolor style.outlinewipecolor
  .ok ⟨assStyleName idx style.name, style.fontname, (style.fontsize : ℚ) * (7 / 5),
       secondary, primary, outlineColor, backColor,
       strContainsChar style.fontstyle 'B', strContainsChar style.fontstyle 'I',
       strContainsChar style.fontstyle 'U', strContainsChar style.fontstyle 'S',
       (style.outlines.sum : ℚ) / 4, (style.shadows.sum : ℚ) / 2,
       0, 0, 0, style.charset, 8⟩

/-- The style loop of `ass_document`: one entry per key of the (final)
collection, in dict insertion order. -/
def buildStyles : StyleColl → Except PyErr (List AssStyleOut)
  | [] => .ok []
  | (idx, style) :: rest => do
      let s ← buildStyle idx style
      let ss ← buildStyles rest
      .ok (s :: ss)

/-- converters.py `AssConverter.ass_document`: fixed info, the dialogue events
(one per non-empty line), then one style entry per key left in the collection
after the event loop (lazily-derived fixed styles included). -/
def ass_document (m : Margins) (o : AssOptions) (styles : StyleColl)
    (pages : List KBPPage) : Except PyErr AssDoc := do
  let (evs, collF) ← buildEvents m o styles pages
  let outs ← buildStyles collF
  .ok ⟨assScriptInfo, evs, outs⟩

/-- The adjusted highlighted duration as the specification words it (claim C1):
the base duration `end - start`, reduced by `|delay|` when `delay = start - cursor`
is negative, and increased by 1 when the next syllable's declared start equals
this syllable's declared end + 1. -/
def specAdjustedDuration (cur : Int) (s : KBPSyllable) (next : Option KBPSyllable) : Int :=
  (s.end_ - s.start)
    - (if s.start - cur < 0 then ((s.start - cur).natAbs : Int) else 0)
    + (match next with
       | some s2 => if s2.start = s.end_ + 1 then 1 else 0
       | none => 0)

/-- The position tag as the amended claim C8 words it: vertical coordinate
`margin.top + num * (margin.spacing + 19) + 12` — an inter-line stride using
line height 19 together with the unrelated half-height offset constant 12. -/
def specGetPos (m : Margins) (line : KBPLine) (num : Nat) : String :=
  let y := m.top + (num : Int) * (m.spacing + 19) + 12
  if line.align = "C" then
    "\x7b\\pos(150," ++ toString y ++ ")\x7d"
  else if line.align = "L" then
    "\x7b\\an7\\pos(" ++ toString (m.left + 6) ++ "," ++ toString y ++ ")\x7d"
  else
    "\x7b\\an9\\pos(" ++ toString (300 - m.right - 6) ++ "," ++ toString y ++ ")\x7d"

/-- A wiped (non-fixed) style with resolved string colors, used as concrete
test data. -/
def styDefault : KBPStyle :=
  ⟨"Default", .str "FFF", .str "000", .str "F00", .str "00F",
   "Arial", 12, "", 0, [0, 0, 0, 0], [0, 0], 0, "L", false⟩

/-- A second resolved style (for style key 2), never referenced by the C3
counterexample's lines. -/
def styB : KBPStyle :=
  ⟨"B", .str "00F", .str "000", .str "0F0", .str "111",
   "Arial", 10, "B", 0, [1, 1, 1, 1], [0, 0], 0, "L", false⟩

/-- A style whose colors are unresolved palette indices (what parsing with
`resolve_colors=False` produces). -/
def styIndexed : KBPStyle :=
  ⟨"Default", .int 0, .int 1, .int 2, .int 3,
   "Arial", 12, "", 0, [0, 0, 0, 0], [0, 0], 0, "L", false⟩

/-- The claim C2 line: align center, style letter A, start 100, end 500,
syllables ("Hi",100,200,0) and ("there",205,500,0). -/
def c2line : KBPLine :=
  ⟨⟨"C", 'A', 100, 500, 0, 0, 0⟩,
   [⟨"Hi", 100, 200, 0⟩, ⟨"there", 205, 500, 0⟩]⟩

/-- The claim C2 input: one page holding only the C2 line. -/
def c2pages : List KBPPage := [⟨"", "", [c2line]⟩]

/-- The claim C2 style collection: the single style key 1 (letter A). -/
def c2styles : StyleColl := [(1, styDefault)]

/-- Concrete margins used where a claim's input does not constrain them. -/
def m0 : Margins := ⟨2, 2, 7, 12⟩

/-- Margins with top = spacing = 0, used by the C8 counterexample. -/
def mZero : Margins := ⟨0, 0, 0, 0⟩

/-- The claim C3 style collection: styles at keys 1 and 2. -/
def c3styles : StyleColl := [(1, styDefault), (2, styB)]

/-- The claim C3 pages: a single line referencing only style letter A
(key 1); the style at key 2 is never referenced. -/
def c3pages : List KBPPage := [⟨"", "", [c2line]⟩]

/-- Claim C4 failing input: a file with all five header sections present and
synced track info, but no PAGEV2 block at all. -/
def c4linesA : List String :=
  ["-----------------------------",
   "HEADERV2",
   "'Palette Colours",
   "000,111,222,333,444,555,666,777,888,999,AAA,BBB,CCC,DDD,EEE,FFF",
   "'Styles",
   "  Style00,Default,0,1,2,3",
   "  Arial,12,,0",
   "  0,0,0,0,0,0,0,L",
   "  StyleEnd",
   "'Margins",
   "  2,2,7,12",
   "'Other",
   "  5,0",
   "'--- Track Information ---",
   "Status     1",
   "-----------------------------"]

/-- A file input with only the track-information section, exercising the
end-of-parse collected missing-sections error. -/
def c4linesB : List String :=
  ["-----------------------------",
   "HEADERV2",
   "'--- Track Information ---",
   "Status 1",
   "-----------------------------"]

/-- The `KBPFileData` that parsing `c4linesA` produces. -/
def c4fileA : KBPFileData :=
  ⟨["000", "111", "222", "333", "444", "555", "666", "777",
    "888", "999", "AAA", "BBB", "CCC", "DDD", "EEE", "FFF"],
   [(1, styIndexed)],
   [("left", 2), ("right", 2), ("top", 7), ("spacing", 12)],
   [("bordercolor", 5), ("wipedetail", 0)],
   [("status", "1")], [], []⟩

/-- Claim C7 counterexample page block: a complete line (header, one
syllable, closing empty line) followed by a transition marker line. -/
def c7lines : List String := ["C/A/0/10/0/0/0", "Hi/0/10/0", "", "FX/K/P"]

/-- The line that the C7 block accumulates before the FX marker. -/
def c7line : KBPLine := ⟨⟨"C", 'A', 0, 10, 0, 0, 0⟩, [⟨"Hi", 0, 10, 0⟩]⟩

/-- Claim C10 witness block: a line header and a syllable with no closing
empty line before the block ends. -/
def c10lines : List String := ["C/A/0/10/0/0/0", "Hi/0/10/0"]


/-- The signed style keys the specification quantifies over:
[-26,-1] ∪ [1,26]. -/
def validStyleKeys : List Int :=
  ((List.range 26).map (fun n => -(n : Int) - 1)) ++
    (List.range 26).map (fun n => (n : Int) + 1)

/-- The document produced by converting the C3 input (evaluated form, used by
the C3 witness). -/
def c3doc : AssDoc :=
  (ass_document m0 defaultAssOptions c3styles c3pages).toOption.getD ⟨[], [], []⟩

/-- The event-loop result for the C9 witness input (one line styled A over the
unresolved style collection). -/
def c9run : List AssDialogue × StyleColl :=
  (buildEvents m0 defaultAssOptions [(1, styIndexed)] c2pages).toOption.getD ([], [])

/-- The page-parser state after scanning the C10 block (evaluated form, used
by the C10 witness). -/
def c10state : PageState :=
  (runPage none pageInit c10lines).toOption.getD pageInit

lemma except_bind_ok {α β : Type} (a : α) (f : α → Except PyErr β) :
    (Except.ok a >>= f) = f a := rfl

lemma except_bind_err {α β : Type} (e : PyErr) (f : α → Except PyErr β) :
    ((Except.error e : Except PyErr α) >>= f) = Except.error e := rfl

lemma except_pure {α : Type} (a : α) : (pure a : Except PyErr α) = Except.ok a := rfl

lemma dictLookup_append_some {d : StyleColl} {k : Int} {v : KBPStyle}
    (e : StyleColl) (h : dictLookup d k = some v) : dictLookup (d ++ e) k = some v := by
  induction d with
  | nil => simp [dictLookup] at h
  | cons p rest ih =>
    obtain ⟨k0, v0⟩ := p
    by_cases hk : k0 = k
    · simp only [dictLookup, if_pos hk] at h
      simpa only [List.cons_append, dictLookup, if_pos hk] using h
    · simp only [dictLookup, if_neg hk] at h
      simpa only [List.cons_append, dictLookup, if_neg hk] using ih h

lemma dictSet_of_lookup_none {d : StyleColl} {k : Int} (v : KBPStyle)
    (h : dictLookup d k = none) : dictSet d k v = d ++ [(k, v)] := by
  induction d with
  | nil => rfl
  | cons p rest ih =>
    obtain ⟨k0, v0⟩ := p
    by_cases hk : k0 = k
    · simp [dictLookup, hk] at h
    · simp only [dictLookup, if_neg hk] at h
      simp [dictSet, hk, ih h]

lemma dictLookup_dictSet (d : StyleColl) (k : Int) (v : KBPStyle) (key : Int) :
    dictLookup (dictSet d k v) key = if k = key then some v else dictLookup d key := by
  induction d with
  | nil => simp [dictSet, dictLookup]
  | cons p rest ih =>
    obtain ⟨k0, v0⟩ := p
    by_cases hk : k0 = k
    · subst hk
      by_cases hq : k0 = key <;> simp [dictSet, dictLookup, hq]
    · by_cases hq : k0 = key
      · subst hq
        have : ¬ k = k0 := fun h => hk h.symm
        simp [dictSet, dictLookup, hk, this]
      · simp [dictSet, dictLookup, hk, hq, ih]

lemma styleGet_append {d : StyleColl} {key : Int} {p : KBPStyle × StyleColl}
    (h : styleGet d key = .ok p) : ∃ e, p.2 = d ++ e := by
  unfold styleGet at h
  cases h1 : dictLookup d key with
  | some w =>
      rw [h1] at h
      simp only [Except.ok.injEq] at h
      exact ⟨[], by simp [← h]⟩
  | none =>
      rw [h1] at h
      cases h2 : dictLookup d (-key) with
      | some w =>
          rw [h2] at h
          simp only [Except.ok.injEq] at h
          exact ⟨[(key, w.make_fixed)], by rw [← h, dictSet_of_lookup_none _ h1]⟩
      | none => rw [h2] at h; cases h

lemma styleGetAlpha_append {d : StyleColl} {c : Char} {p : KBPStyle × StyleColl}
    (h : styleGetAlpha d c = .ok p) : ∃ e, p.2 = d ++ e := by
  unfold styleGetAlpha at h
  split at h
  · cases hk : alpha2key c with
    | some k => rw [hk] at h; exact styleGet_append h
    | none => rw [hk] at h; cases h
  · cases h

lemma buildLineEvents_append (m : Margins) (o : AssOptions) :
    ∀ (lines : List KBPLine) (coll : StyleColl) (num : Nat)
      (r : List AssDialogue × StyleColl),
      buildLineEvents m o coll num lines = .ok r → ∃ e, r.2 = coll ++ e := by
  intro lines
  induction lines with
  | nil =>
      intro coll num r h
      simp only [buildLineEvents, Except.ok.injEq] at h
      exact ⟨[], by simp [← h]⟩
  | cons l rest ih =>
      intro coll num r h
      simp only [buildLineEvents] at h
      split at h
      · exact ih _ _ _ h
      · cases hA : styleGetAlpha coll l.style with
        | error e => rw [hA, except_bind_err] at h; exact absurd h (by simp)
        | ok p =>
            rw [hA, except_bind_ok] at h
            split at h
            · rw [except_pure, except_bind_ok] at h
              cases hB : styleGetAlpha p.2 l.style with
              | error e => rw [hB, except_bind_err] at h; exact absurd h (by simp)
              | ok q =>
                  rw [hB, except_bind_ok] at h
                  cases hR : buildLineEvents m o q.2 (num + 1) rest with
                  | error e => rw [hR, except_bind_err] at h; exact absurd h (by simp)
                  | ok r' =>
                      rw [hR, except_bind_ok] at h
                      simp only [Except.ok.injEq] at h
                      obtain ⟨e1, he1⟩ := styleGetAlpha_append hA
                      obtain ⟨e2, he2⟩ := styleGetAlpha_append hB
                      obtain ⟨e3, he3⟩ := ih _ _ _ hR
                      refine ⟨e1 ++ e2 ++ e3, ?_⟩
                      rw [← h]
                      simp only []
                      rw [he3, he2, he1]
                      simp [List.append_assoc]
            · rw [except_bind_err] at h; exact absurd h (by simp)

lemma buildEvents_append (m : Margins) (o : AssOptions) :
    ∀ (pages : List KBPPage) (coll : StyleColl) (r : List AssDialogue × StyleColl),
      buildEvents m o coll pages = .ok r → ∃ e, r.2 = coll ++ e := by
  intro pages
  induction pages with
  | nil =>
      intro coll r h
      simp only [buildEvents, Except.ok.injEq] at h
      exact ⟨[], by simp [← h]⟩
  | cons pg rest ih =>
      intro coll r h
      simp only [buildEvents] at h
      cases h1 : buildLineEvents m o coll 0 pg.lines with
      | error e => rw [h1, except_bind_err] at h; exact absurd h (by simp)
      | ok p =>
          rw [h1, except_bind_ok] at h
          cases h2 : buildEvents m o p.2 rest with
          | error e => rw [h2, except_bind_err] at h; exact absurd h (by simp)
          | ok q =>
              rw [h2, except_bind_ok] at h
              simp only [Except.ok.injEq] at h
              obtain ⟨e1, he1⟩ := buildLineEvents_append m o _ _ _ _ h1
              obtain ⟨e2, he2⟩ := ih _ _ h2
              refine ⟨e1 ++ e2, ?_⟩
              rw [← h]
              simp only []
              rw [he2, he1]
              simp [List.append_assoc]

lemma buildStyle_name {idx : Int} {style : KBPStyle} {s : AssStyleOut}
    (h : buildStyle idx style = .ok s) : s.name = assStyleName idx style.name := by
  unfold buildStyle at h
  cases hc1 : kbp2asscolor style.textcolor with
  | error e => rw [hc1, except_bind_err] at h; exact absurd h (by simp)
  | ok c1 =>
      rw [hc1, except_bind_ok] at h
      cases hc2 : kbp2asscolor style.textwipecolor with
      | error e => rw [hc2, except_bind_err] at h; exact absurd h (by simp)
      | ok c2 =>
          rw [hc2, except_bind_ok] at h
          cases hc3 : kbp2asscolor style.outlinecolor with
          | error e => rw [hc3, except_bind_err] at h; exact absurd h (by simp)
          | ok c3 =>
              rw [hc3, except_bind_ok] at h
              cases hc4 : kbp2asscolor style.outlinewipecolor with
              | error e => rw [hc4, except_bind_err] at h; exact absurd h (by simp)
              | ok c4 =>
                  rw [hc4, except_bind_ok] at h
                  simp only [Except.ok.injEq] at h
                  rw [← h]

lemma buildStyles_names :
    ∀ (l : StyleColl) (outs : List AssStyleOut), buildStyles l = .ok outs →
      outs.map (·.name) = l.map (fun p => assStyleName p.1 p.2.name) := by
  intro l
  induction l with
  | nil => intro outs h; simp only [buildStyles, Except.ok.injEq] at h; simp [← h]
  | cons p rest ih =>
      intro outs h
      obtain ⟨idx, style⟩ := p
      simp only [buildStyles] at h
      cases h1 : buildStyle idx style with
      | error e => rw [h1, except_bind_err] at h; exact absurd h (by simp)
      | ok s =>
          rw [h1, except_bind_ok] at h
          cases h2 : buildStyles rest with
          | error e => rw [h2, except_bind_err] at h; exact absurd h (by simp)
          | ok ss =>
              rw [h2, except_bind_ok] at h
              simp only [Except.ok.injEq] at h
              subst h
              simp only [List.map_cons]
              rw [buildStyle_name h1, ih ss h2]

lemma bind_ok_inv {α β : Type} {x : Except PyErr α} {f : α → Except PyErr β} {b : β}
    (h : (x >>= f) = .ok b) : ∃ a, x = .ok a ∧ f a = .ok b := by
  cases x with
  | error e => rw [except_bind_err] at h; exact absurd h (by simp)
  | ok a => rw [except_bind_ok] at h; exact ⟨a, rfl, h⟩

lemma applyPalette_none (st : KBPStyle) : applyPalette none st = .ok st := rfl

/-- All four color fields of a style are raw palette indices. -/
def hasIntColors (st : KBPStyle) : Prop :=
  (∃ n, st.textcolor = .int n) ∧ (∃ n, st.outlinecolor = .int n) ∧
    (∃ n, st.textwipecolor = .int n) ∧ (∃ n, st.outlinewipecolor = .int n)

lemma stylesSet_ok_inv {d d' : StyleColl} {k : Int} {v : KBPStyle}
    (h : stylesSet d k v = .ok d') : d' = dictSet d k v := by
  unfold stylesSet at h
  split at h
  · simpa using h.symm
  · cases h

lemma stylesLoop_int_colors :
    ∀ (lines : List String) (sn : Option Int) (coll coll' : StyleColl),
      stylesLoop none sn coll lines = .ok coll' →
      (∀ k st, dictLookup coll k = some st → hasIntColors st) →
      ∀ k st, dictLookup coll' k = some st → hasIntColors st := by
  intro lines
  induction lines with
  | nil =>
      intro sn coll coll' h hinv k st hl
      simp only [stylesLoop, Except.ok.injEq] at h
      subst h
      exact hinv k st hl
  | cons x rest ih =>
      intro sn coll coll' h hinv k st hl
      simp only [stylesLoop] at h
      split at h
      · exact ih _ _ _ h hinv k st hl
      · split at h
        · obtain ⟨t1, ht1, h⟩ := bind_ok_inv h
          obtain ⟨l2, hl2, h⟩ := bind_ok_inv h
          obtain ⟨t2, ht2, h⟩ := bind_ok_inv h
          obtain ⟨l3, hl3, h⟩ := bind_ok_inv h
          obtain ⟨t3, ht3, h⟩ := bind_ok_inv h
          split at h
          · obtain ⟨res, hres, h⟩ := bind_ok_inv h
            rw [applyPalette_none] at hres
            simp only [Except.ok.injEq] at hres
            obtain ⟨coll2, hset, h⟩ := bind_ok_inv h
            have hcoll2 := stylesSet_ok_inv hset
            refine ih _ _ _ h ?_ k st hl
            intro k1 st1 hl1
            rw [hcoll2, dictLookup_dictSet] at hl1
            by_cases hk1 : t1.1 + 1 = k1
            · rw [if_pos hk1] at hl1
              simp only [Option.some.injEq] at hl1
              subst hl1
              rw [← hres]
              exact ⟨⟨_, rfl⟩, ⟨_, rfl⟩, ⟨_, rfl⟩, ⟨_, rfl⟩⟩
            · rw [if_neg hk1] at hl1
              exact hinv k1 st1 hl1
          · cases h
        · exact ih _ _ _ h hinv k st hl

/-- Claim C1: for every non-fixed Line converted to markup, processing
syllables in order with the cursor initialized to `line.start` (as
`kbp2asstext` does via `sylChunks line.start line.syllables`), each step
emits a non-highlighted hold of `delay` units exactly when
`delay = start - cursor > 0`, the syllable's adjusted highlighted duration is
`end - start`, reduced by `|delay|` when `delay < 0` (no floor) and increased
by 1 when the next syllable's declared start equals this syllable's declared
end + 1, and the cursor then advances to `start +` the adjusted duration. -/
theorem claim_C1_markup_step (cur : Int) (s : KBPSyllable) (rest : List KBPSyllable) :
    sylChunks cur (s :: rest) =
      (if s.start - cur > 0 then [AssChunk.hold (s.start - cur)] else []) ++
        AssChunk.wipe (specAdjustedDuration cur s rest.head?) s.syllable ::
          sylChunks (s.start + specAdjustedDuration cur s rest.head?) rest := by
  cases rest with
  | nil =>
      have hdur :
          (if s.start - cur < 0 then s.end_ - s.start + (s.start - cur) else s.end_ - s.start) =
            specAdjustedDuration cur s (List.head? ([] : List KBPSyllable)) := by
        simp only [specAdjustedDuration, List.head?]
        split_ifs <;> omega
      simp only [sylChunks]
      rw [hdur]
  | cons s2 t =>
      have hdur :
          (if s2.start - s.end_ = 1
            then (if s.start - cur < 0 then s.end_ - s.start + (s.start - cur)
                  else s.end_ - s.start) + 1
            else (if s.start - cur < 0 then s.end_ - s.start + (s.start - cur)
                  else s.end_ - s.start)) =
            specAdjustedDuration cur s (s2 :: t).head? := by
        simp only [specAdjustedDuration, List.head?]
        split_ifs <;> omega
      simp only [sylChunks]
      rw [hdur]

/-- Claim C2: for the end-to-end input of one page with one style (key 1,
letter A) and one Line (align center, style A, start 100, end 500) with
syllables ("Hi",100,200,0) and ("there",205,500,0), conversion produces
exactly one dialogue event spanning 1000 ms to 5000 ms (centiseconds times
10), whose markup after the position and fade tags is: no hold tag (delay 0),
highlighted "Hi" for 100 units (no +1 adjustment: the gap to the next
syllable is 5), a hold of 5, then highlighted "there" for 295 units. -/
theorem claim_C2_end_to_end (m : Margins) :
    (ass_document m defaultAssOptions c2styles c2pages).map (·.events) =
      .ok [⟨1000, 5000, "Style01_Default", "karaoke",
            get_pos m c2line 0 ++ fade defaultAssOptions ++
              renderChunks
                [AssChunk.wipe 100 "Hi", AssChunk.hold 5, AssChunk.wipe 295 "there"]⟩] ∧
    sylChunks c2line.start c2line.syllables =
      [AssChunk.wipe 100 "Hi", AssChunk.hold 5, AssChunk.wipe 295 "there"] :=
  ⟨rfl, rfl⟩

lemma dictLookup_mem {d : StyleColl} {k : Int} {v : KBPStyle}
    (h : dictLookup d k = some v) : (k, v) ∈ d := by
  induction d with
  | nil => simp [dictLookup] at h
  | cons p rest ih =>
      obtain ⟨k0, v0⟩ := p
      by_cases hk : k0 = k
      · subst hk
        have hv : v0 = v := by simpa [dictLookup] using h
        subst hv
        exact List.mem_cons_self _ _
      · simp only [dictLookup, if_neg hk] at h
        exact List.mem_cons_of_mem _ (ih h)

/-- Claim C3 counterexample: a File defining styles at keys 1 and 2 whose only
line references letter A (key 1) still yields a style entry for key 2 — the
output style list has one entry per style in the collection, not one per
referenced key, so a style defined but never referenced does produce an
entry. -/
theorem claim_C3_counterexample :
    (ass_document m0 defaultAssOptions c3styles c3pages).map
        (fun d => d.styles.map (·.name)) =
      .ok ["Style01_Default", "Style02_B"] ∧
    c3pages.map (fun p => p.lines.map (fun l => l.header.style)) = [['A']] ∧
    dictLookup c3styles 2 = some styB :=
  ⟨rfl, rfl, rfl⟩

/-- Claim C3 (amended): when conversion succeeds, the output style list has
one entry (in insertion order) per key of the style collection as it stands
after the event loop; that final collection extends the input collection, so
every style defined in the File — referenced by a Line or not — contributes
an entry, alongside any fixed variants lazily cached during event
generation. -/
theorem claim_C3_amended (m : Margins) (o : AssOptions) (coll : StyleColl)
    (pages : List KBPPage) (doc : AssDoc)
    (h : ass_document m o coll pages = .ok doc) :
    (∃ r, buildEvents m o coll pages = .ok r ∧
        doc.styles.map (·.name) = r.2.map (fun p => assStyleName p.1 p.2.name) ∧
        ∃ e, r.2 = coll ++ e) ∧
    ∀ k st, dictLookup coll k = some st →
      assStyleName k st.name ∈ doc.styles.map (·.name) := by
  unfold ass_document at h
  obtain ⟨r, hE, h⟩ := bind_ok_inv h
  obtain ⟨outs, hS, h⟩ := bind_ok_inv h
  simp only [Except.ok.injEq] at h
  have hstyles : doc.styles = outs := by rw [← h]
  have hnames := buildStyles_names r.2 outs hS
  obtain ⟨e, he⟩ := buildEvents_append m o pages coll r hE
  constructor
  · exact ⟨r, hE, by rw [hstyles, hnames], ⟨e, he⟩⟩
  · intro k st hl
    rw [hstyles, hnames, he]
    exact List.mem_map_of_mem _ (List.mem_append_left _ (dictLookup_mem hl))

/-- Claim C3 amended, witnessed at the C3 input: the unreferenced style at
key 2 contributes the entry named Style02_B. -/
theorem claim_C3_amended_witness :
    assStyleName 2 styB.name ∈ c3doc.styles.map (·.name) :=
  (claim_C3_amended m0 defaultAssOptions c3styles c3pages c3doc rfl).2 2 styB rfl

/-- Claim C4 (code bug): `KBPFile.__init__` pre-sets `self.pages = []`, so
`hasattr(self, "pages")` is always true and the end-of-parse check can never
report the pages section.  A file with every header section but no PAGEV2
block parses without error (first two conjuncts), the missing-sections error
does collect all genuinely reportable absent sections into one error (third
conjunct), and no parse state whatsoever can put "pages" into the missing
list (fourth conjunct). -/
theorem claim_C4_pages_never_missing :
    parse c4linesA false true = .ok c4fileA ∧
    c4fileA.pages = [] ∧
    parse c4linesB false true =
      .error (.missingSections ["colors", "styles", "margins", "other"]) ∧
    ∀ st : ParseState, "pages" ∉ missingSectionsOf st := by
  refine ⟨rfl, rfl, rfl, ?_⟩
  intro st
  cases hc : st.colors.isNone <;> cases hs : st.styles.isNone <;>
    cases hm : st.margins.isNone <;> cases ho : st.other.isNone <;>
      cases ht : st.trackinfo.isNone <;>
        simp [missingSectionsOf, hc, hs, hm, ho, ht]

/-- Claim C5: the letter/key aliasing maps are mutually inverse on their
intended domains — `key2alpha (alpha2key L) = L` for every ASCII letter L, and
`alpha2key (key2alpha K) = K` for every signed key K in [-26,-1] ∪ [1,26]. -/
theorem claim_C5_roundtrip :
    (∀ c, c ∈ asciiUppercase ++ asciiLowercase →
        (alpha2key c).bind key2alpha = some c) ∧
    (∀ k, k ∈ validStyleKeys → (key2alpha k).bind alpha2key = some k) := by
  constructor
  · decide
  · decide

theorem claim_C5_roundtrip_witness :
    (alpha2key 'z').bind key2alpha = some 'z' ∧
    (key2alpha (-26)).bind alpha2key = some (-26) :=
  ⟨claim_C5_roundtrip.1 'z' (by decide), claim_C5_roundtrip.2 (-26) (by decide)⟩

/-- Claim C6: in a collection holding a positive key k with the fixed key -k
absent, the first access to -k derives the fixed variant of the style at k and
caches it, and a second access returns the identical cached value with no
further change to the collection (idempotent lazy derivation). -/
theorem claim_C6_lazy_fixed (d : StyleColl) (k : Int) (st : KBPStyle)
    (_hpos : 0 < k) (hk : dictLookup d k = some st) (hneg : dictLookup d (-k) = none) :
    ∃ d1, styleGet d (-k) = .ok (st.make_fixed, d1) ∧
      dictLookup d1 (-k) = some st.make_fixed ∧
      styleGet d1 (-k) = .ok (st.make_fixed, d1) := by
  have h1 : styleGet d (-k) = .ok (st.make_fixed, dictSet d (-k) st.make_fixed) := by
    simp only [styleGet, hneg, neg_neg, hk]
  have h2 : dictLookup (dictSet d (-k) st.make_fixed) (-k) = some st.make_fixed := by
    rw [dictLookup_dictSet]
    simp
  have h3 : styleGet (dictSet d (-k) st.make_fixed) (-k) =
      .ok (st.make_fixed, dictSet d (-k) st.make_fixed) := by
    simp only [styleGet, h2]
  exact ⟨dictSet d (-k) st.make_fixed, h1, h2, h3⟩

theorem claim_C6_lazy_fixed_witness :
    ∃ d1, styleGet [(1, styDefault)] (-1) = .ok (styDefault.make_fixed, d1) ∧
      dictLookup d1 (-1) = some styDefault.make_fixed ∧
      styleGet d1 (-1) = .ok (styDefault.make_fixed, d1) :=
  claim_C6_lazy_fixed [(1, styDefault)] 1 styDefault (by norm_num) (by rfl) (by rfl)

/-- Claim C7 counterexample: in a page block whose line header has already
occurred (and whose line was closed by an empty line), a later FX/ transition
marker still sets the page's transition ids — to ("K","P") here — whereas the
claim says it should have no effect after any line header in the block. -/
theorem claim_C7_counterexample :
    pageFromTextlines c7lines none = .ok ⟨"K", "P", [c7line]⟩ := rfl

/-- Claim C7 (amended): a transition marker line sets the page's transition
ids whenever it is encountered while no line header is currently open —
before the first header, or after a line has been closed by an empty line —
and while a line header is open, no processed line can alter the page's
transition ids. -/
theorem claim_C7_amended :
    (∀ (dw : Option Int) (st : PageState) (x : String),
        st.header = none → pyStartsWith x "FX/" = true → isLineHeaderStr x = false →
        pageStep dw st x = .ok { st with transitions := (pySplitChar '/' x).tail }) ∧
    (∀ (dw : Option Int) (st : PageState) (x : String) (st' : PageState)
        (hd : KBPLineHeader), st.header = some hd → pageStep dw st x = .ok st' →
        st'.transitions = st.transitions) := by
  constructor
  · intro dw st x hh hx hlh
    simp [pageStep, hh, hx, hlh]
  · intro dw st x st' hd hs h
    simp only [pageStep, hs] at h
    by_cases hx : x = ""
    · subst hx
      simp only [Option.isNone_some, Bool.false_and, Bool.and_self, if_false] at h
      simp at h
      rw [← h]
    · simp only [Option.isNone_some, Bool.false_and, if_false] at h
      simp [hx] at h
      obtain ⟨syl, hsyl, h⟩ := bind_ok_inv h
      simp only [Except.ok.injEq] at h
      rw [← h]

theorem claim_C7_amended_witness :
    pageStep none pageInit "FX/K/P" =
      .ok { pageInit with transitions := (pySplitChar '/' "FX/K/P").tail } ∧
    (⟨[], [⟨"Hi", 0, 10, 0⟩], some c7line.header, ["", ""]⟩ : PageState).transitions =
      (⟨[], [], some c7line.header, ["", ""]⟩ : PageState).transitions :=
  ⟨claim_C7_amended.1 none pageInit "FX/K/P" rfl rfl rfl,
   claim_C7_amended.2 none ⟨[], [], some c7line.header, ["", ""]⟩ "Hi/0/10/0" _
     c7line.header rfl rfl⟩

/-- Claim C8 counterexample: with margins top = spacing = 0, the code's
vertical coordinates at line indices 0 and 1 are 12 and 31, but the claimed
form `top + num * (spacing + h) + h/2` with one fixed constant h in both
terms would need `h/2 = 12` and `h + h/2 = 31` simultaneously — impossible
(the code's stride constant is 19 while its additive offset is 12, and
`19/2 ≠ 12`). -/
theorem claim_C8_counterexample :
    ¬ ∃ h : ℕ,
      get_pos_y mZero 0 = mZero.top + 0 * (mZero.spacing + (h : Int)) + ((h / 2 : ℕ) : Int) ∧
      get_pos_y mZero 1 = mZero.top + 1 * (mZero.spacing + (h : Int)) + ((h / 2 : ℕ) : Int) := by
  rintro ⟨h, h1, h2⟩
  have e1 : get_pos_y mZero 0 = 12 := rfl
  have e2 : get_pos_y mZero 1 = 31 := rfl
  rw [e1] at h1
  rw [e2] at h2
  simp only [mZero] at h1 h2
  omega

/-- Claim C8 (amended): the vertical coordinate of the position tag is
`margin.top + num * (margin.spacing + 19) + 12` — the inter-line stride uses
the line-height constant 19, while the added half-height offset is the
separate constant 12 (not 19/2); `get_pos` emits exactly the tag the amended
formula prescribes for each alignment. -/
theorem claim_C8_amended (m : Margins) (line : KBPLine) (num : Nat) :
    get_pos m line num = specGetPos m line num ∧
    get_pos_y m num = m.top + (num : Int) * (m.spacing + 19) + 12 :=
  ⟨rfl, rfl⟩

/-- Claim C9: the color converter iterates over its argument's characters, so
an unresolved integer palette index raises TypeError while any 3-character
code yields a 10-character target code; parsing with the default
`resolve_colors=False` leaves every style's four color fields as integer
indices; and converting a File whose first style carries integer colors fails
with that TypeError as soon as the first style's colors are converted (after
a successful event loop), so conversion succeeds only on resolved string
colors. -/
theorem claim_C9_unresolved_colors :
    (∀ n : Int, kbp2asscolor (.int n) =
        .error (.typeError "'int' object is not iterable")) ∧
    (∀ s : String, s.toList.length = 3 →
        ∃ out, kbp2asscolor (.str s) = .ok out ∧ out.toList.length = 10) ∧
    (∀ lines coll, stylesFromTextlines lines none = .ok coll →
        ∀ k st, dictLookup coll k = some st → hasIntColors st) ∧
    (∀ (m : Margins) (o : AssOptions) (k : Int) (st : KBPStyle) (rest : StyleColl)
        (pages : List KBPPage) (r : List AssDialogue × StyleColl) (n : Int),
        st.textcolor = .int n →
        buildEvents m o ((k, st) :: rest) pages = .ok r →
        ass_document m o ((k, st) :: rest) pages =
          .error (.typeError "'int' object is not iterable")) := by
  refine ⟨fun n => rfl, ?_, ?_, ?_⟩
  · intro s h3
    obtain ⟨a, b, c, habc⟩ := List.length_eq_three.mp h3
    refine ⟨_, rfl, ?_⟩
    rw [habc]
    rfl
  · intro lines coll h
    refine stylesLoop_int_colors lines none [] coll h ?_
    intro k st hl
    simp [dictLookup] at hl
  · intro m o k st rest pages r n htc hE
    obtain ⟨evs, collF⟩ := r
    obtain ⟨e, he⟩ := buildEvents_append m o pages ((k, st) :: rest) (evs, collF) hE
    have he' : collF = (k, st) :: (rest ++ e) := by simpa using he
    have hbs : buildStyles collF = .error (.typeError "'int' object is not iterable") := by
      rw [he']
      simp only [buildStyles, buildStyle, htc]
      rfl
    unfold ass_document
    rw [hE, except_bind_ok]
    simp only [hbs, except_bind_err]

theorem claim_C9_witness :
    hasIntColors styIndexed ∧
    ass_document m0 defaultAssOptions [(1, styIndexed)] c2pages =
      .error (.typeError "'int' object is not iterable") :=
  ⟨claim_C9_unresolved_colors.2.2.1
      ["Style00,Default,0,1,2,3", "Arial,12,,0", "0,0,0,0,0,0,0,L"] [(1, styIndexed)]
      rfl 1 styIndexed rfl,
   claim_C9_unresolved_colors.2.2.2 m0 defaultAssOptions 1 styIndexed [] c2pages c9run 0
      rfl rfl⟩

lemma runPage_append (dw : Option Int) (l1 l2 : List String) (st : PageState) :
    runPage dw st (l1 ++ l2) =
      match runPage dw st l1 with
      | .ok st' => runPage dw st' l2
      | .error e => .error e := by
  induction l1 generalizing st with
  | nil => rfl
  | cons x xs ih =>
      simp only [List.cons_append, runPage]
      cases hps : pageStep dw st x with
      | ok st' => exact ih st'
      | error e => rfl

/-- Claim C10: the page sub-parser appends a Line only when an empty line
arrives while a header is open; if the block's scan ends with a header still
open (a final line not followed by an empty line), the returned Page's lines
are exactly the ones already closed — the pending final Line is silently
dropped — whereas appending one closing empty line to the same block would
append exactly that Line. -/
theorem claim_C10_final_line_dropped (dw : Option Int) (pls : List String)
    (st : PageState) (hd : KBPLineHeader)
    (hrun : runPage dw pageInit pls = .ok st) (hopen : st.header = some hd) :
    (∀ pg, pageFromTextlines pls dw = .ok pg → pg.lines = st.lines) ∧
    (∀ pg, pageFromTextlines (pls ++ [""]) dw = .ok pg →
        pg.lines = st.lines ++ [⟨hd, st.syllables⟩]) := by
  have hstep : pageStep dw st "" =
      .ok { st with lines := st.lines ++ [⟨hd, st.syllables⟩],
                    syllables := [], header := none } := by
    simp [pageStep, hopen]
  constructor
  · intro pg hpg
    unfold pageFromTextlines at hpg
    rw [hrun, except_bind_ok] at hpg
    split at hpg
    · simp only [Except.ok.injEq] at hpg
      rw [← hpg]
    · cases hpg
  · intro pg hpg
    unfold pageFromTextlines at hpg
    rw [runPage_append, hrun] at hpg
    simp only [runPage, hstep] at hpg
    rw [except_bind_ok] at hpg
    split at hpg
    · simp only [Except.ok.injEq] at hpg
      rw [← hpg]
    · cases hpg

theorem claim_C10_witness :
    (⟨"", "", []⟩ : KBPPage).lines = c10state.lines ∧
    (⟨"", "", [c7line]⟩ : KBPPage).lines =
      c10state.lines ++ [⟨c7line.header, c10state.syllables⟩] :=
  ⟨(claim_C10_final_line_dropped none c10lines c10state c7line.header rfl rfl).1
      ⟨"", "", []⟩ rfl,
   (claim_C10_final_line_dropped none c10lines c10state c7line.header rfl rfl).2
      ⟨"", "", [c7line]⟩ rfl⟩
